import Mathlib

/-!
Shallow embedding of `src/couchapps/JobDump/views/jobStatusByWorkflowAndSite/map.js`,
the CouchDB map function that classifies a job document into a status and an
execution site and emits `[workflow, status, site] -> 1`.

Modelling choices, each traceable to a line of the source:

* A state transition record carries `oldstate`, `newstate`, `location` (§ the
  only fields the source reads).
* `doc['states']` is a JavaScript object.  The source iterates it with
  `for (var lastStateIndex in doc['states'])`, so what matters is the list of
  own enumerable keys **in the engine's iteration order** together with the
  transition stored under each key.  We therefore embed `states` as an
  association list `List (Int × Transition)` given in iteration order; the keys
  are the integer values of the stringified indices (the only key shape the
  documents use), since JavaScript's ToNumber/ToString are inverse bijections
  on canonical numerals this loses nothing.  Property access
  `doc['states'][k]` is `statesGet`; a missing key yields `none`
  (JavaScript `undefined`).
* After the loop, `lastStateIndex` holds the key of the final iterated entry,
  or the initial numeric `0` when `states` is empty (`var lastStateIndex = 0`);
  this is `lastKey`.
* `statusMap` reads `doc['states'][lastStateIndex]` and, on the `executing`
  and `cleanout/exhausted` branches, `doc['states'][lastStateIndex - 1]`
  (JavaScript coerces the string key to a number and subtracts).  Reading a
  property of `undefined` throws a `TypeError`; `throw "not valid transition"`
  is the source's explicit rejection.  Both are modelled by `JSError`.
* The site loop keeps `tmpSite` (the most recent location) and `siteLocation`
  (the most recent location ≠ "Agent"); afterwards a `null` `siteLocation` is
  replaced by `tmpSite`.
* `emit([doc['workflow'], statusMap(), siteLocation], 1)` evaluates its
  arguments before the call, so a throw inside `statusMap` happens before any
  row is emitted; `runMap` returns the list of rows actually emitted together
  with the uncaught error, if any.
* Ordinary documents store `states` as a JSON array; for arrays every
  ECMAScript engine iterates the indices 0,1,…,n-1 in ascending order, which
  `mkStates` builds.  `classify` is the classifier on that representation.
-/

namespace JobDump

structure Transition where
  oldstate : String
  newstate : String
  location : String
deriving DecidableEq

/-- The two ways the source's `statusMap` can throw: a JavaScript `TypeError`
from reading a property of `undefined` (out-of-range lookup), and the explicit
`throw "not valid transition"`. -/
inductive JSError where
  | typeError
  | invalidTransition
deriving DecidableEq

structure JobDoc where
  type : String
  workflow : String
  states : List (Int × Transition)
deriving DecidableEq

/-- One row passed to `emit`: key `[workflow, status, siteLocation]`, value 1.
`site = none` is JavaScript `null`. -/
structure Emitted where
  workflow : String
  status : String
  site : Option String
  value : Nat
deriving DecidableEq

/-- JavaScript property access `doc['states'][k]`: the value stored under key
`k`, `none` for `undefined`.  (Keys of a JS object are unique; first match.) -/
def statesGet : List (Int × Transition) → Int → Option Transition
  | [], _ => none
  | p :: rest, k => if p.1 = k then some p.2 else statesGet rest k

/-- Value of `lastStateIndex` after `for (var lastStateIndex in doc['states'])`:
the key of the last entry in iteration order, or the initial `0` when the loop
body never runs. -/
def lastKey (entries : List (Int × Transition)) : Int :=
  match entries.getLast? with
  | some p => p.1
  | none => 0

/-- The body of the source's `statusMap`, abstracted over the two lookups it
performs: `last = doc['states'][lastStateIndex]` and
`prev = doc['states'][lastStateIndex - 1]`.  `none` means `undefined`, whose
`.newstate` / `.oldstate` access throws a `TypeError`. -/
def statusCore (last prev : Option Transition) : Except JSError String :=
  match last with
  | none => .error .typeError
  | some t =>
    match t.newstate with
    | "created" =>
        if t.oldstate = "new" then .ok "queued_first"
        else if t.oldstate = "jobcooloff" then .ok "queued_retry"
        else .error .invalidTransition
    | "jobcooloff" => .ok "cooloff"
    | "executing" =>
        match prev with
        | none => .error .typeError
        | some p =>
            if p.oldstate = "new" then .ok "submitted_first"
            else if p.oldstate = "jobcooloff" then .ok "submitted_retry"
            else .error .invalidTransition
    | "success" => .ok "success"
    | "exhausted" =>
        if t.oldstate = "jobfailed" then .ok "failure_exception"
        else if t.oldstate = "submitfailed" then .ok "failure_submit"
        else if t.oldstate = "createfailed" then .ok "failure_create"
        else .error .invalidTransition
    | "killed" => .ok "canceled"
    | "cleanout" =>
        if t.oldstate = "success" then .ok "success"
        else if t.oldstate = "exhausted" then
          match prev with
          | none => .error .typeError
          | some p =>
              if p.oldstate = "jobfailed" then .ok "failure_exception"
              else if p.oldstate = "submitfailed" then .ok "failure_submit"
              else if p.oldstate = "createfailed" then .ok "failure_create"
              else .error .invalidTransition
        else .error .invalidTransition
    | _ => .ok "transition"

/-- The source's `statusMap()` as run after the site loop: both lookups use the
`lastStateIndex` left by the loop. -/
def statusMapM (entries : List (Int × Transition)) : Except JSError String :=
  statusCore (statesGet entries (lastKey entries))
    (statesGet entries (lastKey entries - 1))

/-- One pass of the site loop body:
`tmpSite = …location; if (tmpSite !== "Agent") siteLocation = tmpSite`. -/
def siteStep (acc : Option String × Option String) (p : Int × Transition) :
    Option String × Option String :=
  (some p.2.location,
    if p.2.location ≠ "Agent" then some p.2.location else acc.2)

/-- The whole site loop, from `tmpSite = null; siteLocation = null`. -/
def siteScan (entries : List (Int × Transition)) :
    Option String × Option String :=
  entries.foldl siteStep (none, none)

/-- `siteLocation` as passed to `emit`, after
`if (siteLocation == null) siteLocation = tmpSite`. -/
def resolvedSite (entries : List (Int × Transition)) : Option String :=
  match (siteScan entries).2 with
  | some s => some s
  | none => (siteScan entries).1

/-- The map function on one document: the rows actually emitted, and the
uncaught error if one was thrown.  `statusMap()` is evaluated while building
`emit`'s argument, so a throw there aborts before the row is emitted. -/
def runMap (doc : JobDoc) : List Emitted × Option JSError :=
  if doc.type = "job" then
    match statusMapM doc.states with
    | .error e => ([], some e)
    | .ok st =>
        ([⟨doc.workflow, st, resolvedSite doc.states, 1⟩], none)
  else ([], none)

/-- `states` as stored in an ordinary document: a JSON array, whose `for-in`
iteration order is the indices `i, i+1, …` ascending. -/
def statesFrom (i : Int) : List Transition → List (Int × Transition)
  | [] => []
  | t :: ts => (i, t) :: statesFrom (i + 1) ts

def mkStates (ts : List Transition) : List (Int × Transition) :=
  statesFrom 0 ts

/-- The classifier on the array representation of a history. -/
def classify (ts : List Transition) : Except JSError String :=
  statusMapM (mkStates ts)

/-- The last location different from "Agent" in a location sequence, if any
(used to state the site-resolution claims). -/
def lastNonAgent (locs : List String) : Option String :=
  (locs.filter (fun l => l ≠ "Agent")).getLast?

/-! ### Bridging lemmas: the array representation `mkStates` -/

theorem statesGet_statesFrom (ts : List Transition) :
    ∀ (i k : Int), statesGet (statesFrom i ts) k =
      if i ≤ k then ts[(k - i).toNat]? else none := by
  induction ts with
  | nil =>
      intro i k
      simp [statesFrom, statesGet]
  | cons t ts ih =>
      intro i k
      simp only [statesFrom, statesGet]
      by_cases hik : i = k
      · subst hik
        simp
      · rw [if_neg hik, ih (i + 1) k]
        by_cases h1 : i + 1 ≤ k
        · rw [if_pos h1, if_pos (by omega)]
          have hx : (k - i).toNat = (k - (i + 1)).toNat + 1 := by omega
          rw [hx]
          simp
        · rw [if_neg h1, if_neg (by omega)]

theorem statesGet_mkStates (ts : List Transition) (k : Int) :
    statesGet (mkStates ts) k = if 0 ≤ k then ts[k.toNat]? else none := by
  rw [mkStates, statesGet_statesFrom]
  simp

theorem lastKey_statesFrom (ts : List Transition) :
    ∀ i : Int, ts ≠ [] → lastKey (statesFrom i ts) = i + ts.length - 1 := by
  induction ts with
  | nil =>
      intro i h
      exact absurd rfl h
  | cons t ts ih =>
      intro i _
      cases ts with
      | nil => simp [statesFrom, lastKey]
      | cons u us =>
          have hne : (u :: us : List Transition) ≠ [] := by simp
          have hstep :
              lastKey (statesFrom i (t :: u :: us)) =
                lastKey (statesFrom (i + 1) (u :: us)) := by
            simp [statesFrom, lastKey, List.getLast?_cons_cons]
          rw [hstep, ih (i + 1) hne]
          simp only [List.length_cons]
          push_cast
          ring

theorem lastKey_mkStates (ts : List Transition) (h : ts ≠ []) :
    lastKey (mkStates ts) = (ts.length : Int) - 1 := by
  rw [mkStates, lastKey_statesFrom ts 0 h]
  ring

/-- The classifier on an array-represented history reads the last transition
and, where needed, the second-to-last. -/
theorem classify_eq_statusCore (ts : List Transition) :
    classify ts =
      statusCore ts.getLast?
        (if 2 ≤ ts.length then ts[ts.length - 2]? else none) := by
  cases hts : ts with
  | nil => simp [classify, statusMapM, mkStates, statesFrom, lastKey, statesGet]
  | cons t0 rest =>
      rw [← hts]
      have hne : ts ≠ [] := by simp [hts]
      have hlen : 1 ≤ ts.length := List.length_pos.mpr hne
      rw [classify, statusMapM, lastKey_mkStates ts hne,
        statesGet_mkStates, statesGet_mkStates]
      rw [if_pos (by omega : (0:Int) ≤ (ts.length : Int) - 1)]
      have h1 : ((ts.length : Int) - 1).toNat = ts.length - 1 := by omega
      rw [h1, ← List.getLast?_eq_getElem?]
      by_cases h2 : 2 ≤ ts.length
      · rw [if_pos (by omega : (0:Int) ≤ (ts.length : Int) - 1 - 1)]
        have hx : ((ts.length : Int) - 1 - 1).toNat = ts.length - 2 := by omega
        rw [hx, if_pos h2]
      · rw [if_neg (by omega), if_neg h2]

/-- The site loop body on a plain transition (the key component of the pair is
unused by the body). -/
def siteStepT (acc : Option String × Option String) (t : Transition) :
    Option String × Option String :=
  (some t.location, if t.location ≠ "Agent" then some t.location else acc.2)

theorem foldl_siteStep_statesFrom (ts : List Transition) :
    ∀ (i : Int) (acc : Option String × Option String),
      (statesFrom i ts).foldl siteStep acc = ts.foldl siteStepT acc := by
  induction ts with
  | nil => intro i acc; rfl
  | cons t ts ih =>
      intro i acc
      simp only [statesFrom, List.foldl_cons]
      rw [ih]
      rfl

theorem getLast?_cons_getD {α : Type} (x : α) (l : List α) :
    (x :: l).getLast? = some ((l.getLast?).getD x) := by
  induction l generalizing x with
  | nil => rfl
  | cons y ys ih =>
      rw [List.getLast?_cons_cons, ih y]
      simp [ih]

theorem foldl_siteStepT_snd (ts : List Transition) :
    ∀ acc : Option String × Option String,
      (ts.foldl siteStepT acc).2 =
        match lastNonAgent (ts.map Transition.location) with
        | some s => some s
        | none => acc.2 := by
  induction ts with
  | nil => intro acc; simp [lastNonAgent]
  | cons t ts ih =>
      intro acc
      rw [List.foldl_cons, ih]
      by_cases h : t.location = "Agent"
      · simp only [lastNonAgent, List.map_cons, List.filter_cons]
        simp [h, siteStepT, lastNonAgent]
      · simp only [lastNonAgent, List.map_cons, List.filter_cons]
        rw [if_pos (by simp [h])]
        rw [getLast?_cons_getD]
        cases hl : (List.filter (fun l => l ≠ "Agent")
            (ts.map Transition.location)).getLast? with
        | none => simp [lastNonAgent, hl, siteStepT, h]
        | some s => simp [lastNonAgent, hl, siteStepT, h]

theorem foldl_siteStepT_fst (ts : List Transition) :
    ∀ acc : Option String × Option String,
      (ts.foldl siteStepT acc).1 =
        match (ts.map Transition.location).getLast? with
        | some l => some l
        | none => acc.1 := by
  induction ts with
  | nil => intro acc; simp
  | cons t ts ih =>
      intro acc
      rw [List.foldl_cons, ih]
      rw [List.map_cons, getLast?_cons_getD]
      cases hl : (ts.map Transition.location).getLast? with
      | none => simp [hl, siteStepT]
      | some s => simp [hl, siteStepT]

/-- On a non-empty array-represented history, the `siteLocation` handed to
`emit` is the last non-"Agent" location, or "Agent" when there is none. -/
theorem resolvedSite_mkStates (ts : List Transition) (h : ts ≠ []) :
    resolvedSite (mkStates ts) =
      some ((lastNonAgent (ts.map Transition.location)).getD "Agent") := by
  rw [resolvedSite, siteScan, mkStates, foldl_siteStep_statesFrom]
  rw [foldl_siteStepT_snd, foldl_siteStepT_fst]
  cases hl : lastNonAgent (ts.map Transition.location) with
  | some s => simp
  | none =>
      have hfil : List.filter (fun l => l ≠ "Agent")
          (ts.map Transition.location) = [] := by
        have := hl
        rw [lastNonAgent] at this
        exact List.getLast?_eq_none_iff.mp this
      have hall : ∀ l ∈ ts.map Transition.location, l = "Agent" := by
        intro l hm
        have := List.filter_eq_nil_iff.mp hfil l hm
        simpa using this
      have hmapne : ts.map Transition.location ≠ [] := by
        simp [h]
      cases hml : (ts.map Transition.location).getLast? with
      | none => exact absurd (List.getLast?_eq_none_iff.mp hml) hmapne
      | some x =>
          have hx : x = "Agent" := hall x (List.mem_of_mem_getLast? hml)
          simp [hx]

/-! ### Claim theorems -/

/-- Claim C5: for a history whose last transition has `newstate = "created"`,
the status is `queued_first` when its `oldstate` is `"new"`, `queued_retry`
when `"jobcooloff"`, and the invalid-transition error otherwise; a
single-transition history `[{oldstate:"new", newstate:"created", location:L}]`
is emitted as `queued_first` with site `L` (which is "Agent" when
`L = "Agent"`). -/
theorem classify_created :
    (∀ (ts : List Transition) (t : Transition), ts.getLast? = some t →
        t.newstate = "created" →
        classify ts =
          (if t.oldstate = "new" then .ok "queued_first"
           else if t.oldstate = "jobcooloff" then .ok "queued_retry"
           else .error .invalidTransition))
    ∧ (∀ (wf L : String),
        runMap ⟨"job", wf, mkStates [⟨"new", "created", L⟩]⟩ =
          ([⟨wf, "queued_first",
              some (if L = "Agent" then "Agent" else L), 1⟩], none)) := by
  constructor
  · intro ts t hl hn
    rw [classify_eq_statusCore, hl]
    simp [statusCore, hn]
  · intro wf L
    by_cases hL : L = "Agent"
    · simp [runMap, statusMapM, mkStates, statesFrom, lastKey, statesGet,
        statusCore, resolvedSite, siteScan, siteStep, hL]
    · simp [runMap, statusMapM, mkStates, statesFrom, lastKey, statesGet,
        statusCore, resolvedSite, siteScan, siteStep, hL]

/-- Witness for claim C5 at the concrete history
`[{oldstate:"jobcooloff", newstate:"created"}]`. -/
theorem classify_created_witness :
    classify [⟨"jobcooloff", "created", "siteX"⟩] = .ok "queued_retry" := by
  have h := classify_created.1 [⟨"jobcooloff", "created", "siteX"⟩]
    ⟨"jobcooloff", "created", "siteX"⟩ rfl rfl
  simpa using h

/-- Claim C3: a history ending in `newstate = "exhausted"` is classified by
the last transition's `oldstate` (`jobfailed ↦ failure_exception`,
`submitfailed ↦ failure_submit`, `createfailed ↦ failure_create`, otherwise
the invalid-transition error); a history of length ≥ 2 ending in
`newstate = "cleanout"` maps `oldstate = "success"` to `success`,
`oldstate = "exhausted"` to the same three-way lookup on the second-to-last
transition's `oldstate`, and anything else to the invalid-transition error. -/
theorem classify_exhausted_cleanout :
    (∀ (ts : List Transition) (t : Transition), ts.getLast? = some t →
        t.newstate = "exhausted" →
        classify ts =
          (if t.oldstate = "jobfailed" then .ok "failure_exception"
           else if t.oldstate = "submitfailed" then .ok "failure_submit"
           else if t.oldstate = "createfailed" then .ok "failure_create"
           else .error .invalidTransition))
    ∧ (∀ (ts : List Transition) (t p : Transition), 2 ≤ ts.length →
        ts.getLast? = some t → ts[ts.length - 2]? = some p →
        t.newstate = "cleanout" →
        classify ts =
          (if t.oldstate = "success" then .ok "success"
           else if t.oldstate = "exhausted" then
             (if p.oldstate = "jobfailed" then .ok "failure_exception"
              else if p.oldstate = "submitfailed" then .ok "failure_submit"
              else if p.oldstate = "createfailed" then .ok "failure_create"
              else .error .invalidTransition)
           else .error .invalidTransition)) := by
  constructor
  · intro ts t hl hn
    rw [classify_eq_statusCore, hl]
    simp [statusCore, hn]
  · intro ts t p h2 hl hp hn
    rw [classify_eq_statusCore, hl, if_pos h2, hp]
    simp [statusCore, hn]

/-- Witness for claim C3 at the spec's concrete history
`[{old:submitfailed, new:exhausted, loc:X}, {old:exhausted, new:cleanout,
loc:Y}]`. -/
theorem classify_exhausted_cleanout_witness :
    classify [⟨"submitfailed", "exhausted", "siteX"⟩,
        ⟨"exhausted", "cleanout", "Agent"⟩] = .ok "failure_submit" := by
  have h := classify_exhausted_cleanout.2
    [⟨"submitfailed", "exhausted", "siteX"⟩, ⟨"exhausted", "cleanout", "Agent"⟩]
    ⟨"exhausted", "cleanout", "Agent"⟩ ⟨"submitfailed", "exhausted", "siteX"⟩
    (by decide) rfl rfl rfl
  simpa using h

/-- Claim C4: a history of length ≥ 2 whose last transition has
`newstate = "executing"` is classified solely from the second-to-last
transition's `oldstate` (`new ↦ submitted_first`,
`jobcooloff ↦ submitted_retry`, otherwise the invalid-transition error); the
right-hand side never mentions the last transition's `oldstate`, so it is not
consulted. -/
theorem classify_executing_lookback (ts : List Transition) (t p : Transition)
    (h2 : 2 ≤ ts.length) (hl : ts.getLast? = some t)
    (hp : ts[ts.length - 2]? = some p) (hn : t.newstate = "executing") :
    classify ts =
      (if p.oldstate = "new" then .ok "submitted_first"
       else if p.oldstate = "jobcooloff" then .ok "submitted_retry"
       else .error .invalidTransition) := by
  rw [classify_eq_statusCore, hl, if_pos h2, hp]
  simp [statusCore, hn]

/-- Witness for claim C4 at the spec's concrete history
`[{old:new, new:created, loc:Agent}, {old:created, new:executing,
loc:siteA}]`. -/
theorem classify_executing_lookback_witness :
    classify [⟨"new", "created", "Agent"⟩, ⟨"created", "executing", "siteA"⟩] =
      .ok "submitted_first" := by
  have h := classify_executing_lookback
    [⟨"new", "created", "Agent"⟩, ⟨"created", "executing", "siteA"⟩]
    ⟨"created", "executing", "siteA"⟩ ⟨"new", "created", "Agent"⟩
    (by decide) rfl rfl rfl
  simpa using h

/-- Claim C10 (implicit): on the `cleanout`-after-`exhausted` branch with a
second-to-last transition available, the status depends only on that
transition's `oldstate`; its `newstate` does not occur on the right-hand side,
so non-contiguous histories (second-to-last `newstate ≠ "exhausted"`) get the
same three-way mapping. -/
theorem cleanout_lookback_ignores_newstate (ts : List Transition)
    (t p : Transition) (h2 : 2 ≤ ts.length) (hl : ts.getLast? = some t)
    (hp : ts[ts.length - 2]? = some p) (hn : t.newstate = "cleanout")
    (ho : t.oldstate = "exhausted") :
    classify ts =
      (if p.oldstate = "jobfailed" then .ok "failure_exception"
       else if p.oldstate = "submitfailed" then .ok "failure_submit"
       else if p.oldstate = "createfailed" then .ok "failure_create"
       else .error .invalidTransition) := by
  rw [classify_eq_statusCore, hl, if_pos h2, hp]
  simp [statusCore, hn, ho]

/-- Witness for claim C10: the second-to-last transition has
`newstate = "weird"` (not `"exhausted"`), yet the mapping on its `oldstate`
is still applied. -/
theorem cleanout_lookback_ignores_newstate_witness :
    classify [⟨"submitfailed", "weird", "siteA"⟩,
        ⟨"exhausted", "cleanout", "Agent"⟩] = .ok "failure_submit" := by
  have h := cleanout_lookback_ignores_newstate
    [⟨"submitfailed", "weird", "siteA"⟩, ⟨"exhausted", "cleanout", "Agent"⟩]
    ⟨"exhausted", "cleanout", "Agent"⟩ ⟨"submitfailed", "weird", "siteA"⟩
    (by decide) rfl rfl rfl rfl
  simpa using h

/-- Claim C2: on a non-empty array-represented history whose classification
succeeds, the emitted site is the location of the last transition whose
location is not "Agent", and "Agent" when every location is "Agent". -/
theorem resolvedSite_lastNonAgent (wf : String) (ts : List Transition)
    (h : ts ≠ []) (st : String) (hc : statusMapM (mkStates ts) = .ok st) :
    runMap ⟨"job", wf, mkStates ts⟩ =
      ([⟨wf, st,
          some ((lastNonAgent (ts.map Transition.location)).getD "Agent"),
          1⟩], none) := by
  simp [runMap, hc, resolvedSite_mkStates ts h]

/-- Witness for claim C2 at the spec's location sequence
`[Agent, siteA, Agent, siteB, Agent]`: the resolved site is `siteB`. -/
theorem resolvedSite_lastNonAgent_witness :
    runMap ⟨"job", "wf", mkStates
        [⟨"new", "created", "Agent"⟩, ⟨"created", "executing", "siteA"⟩,
         ⟨"executing", "jobfailed", "Agent"⟩, ⟨"jobfailed", "exhausted", "siteB"⟩,
         ⟨"exhausted", "success", "Agent"⟩]⟩ =
      ([⟨"wf", "success", some "siteB", 1⟩], none) := by
  have h := resolvedSite_lastNonAgent "wf"
    [⟨"new", "created", "Agent"⟩, ⟨"created", "executing", "siteA"⟩,
     ⟨"executing", "jobfailed", "Agent"⟩, ⟨"jobfailed", "exhausted", "siteB"⟩,
     ⟨"exhausted", "success", "Agent"⟩]
    (by simp) "success" rfl
  simpa using h

/-- Claim C6: a document whose `type` is `"job"` and whose classification
succeeds emits exactly one row, keyed `[workflow, status, resolvedSite]` with
value 1; a document of any other `type` emits nothing (and throws nothing). -/
theorem runMap_emit_contract :
    (∀ (doc : JobDoc) (st : String), doc.type = "job" →
        statusMapM doc.states = .ok st →
        runMap doc = ([⟨doc.workflow, st, resolvedSite doc.states, 1⟩], none))
    ∧ (∀ doc : JobDoc, doc.type ≠ "job" → runMap doc = ([], none)) := by
  constructor
  · intro doc st ht hc
    simp [runMap, ht, hc]
  · intro doc ht
    simp [runMap, ht]

/-- Witness for claim C6: a succeeding job document emits one row, a
non-job document emits none. -/
theorem runMap_emit_contract_witness :
    runMap ⟨"job", "wf", mkStates [⟨"new", "created", "siteA"⟩]⟩ =
      ([⟨"wf", "queued_first", some "siteA", 1⟩], none)
    ∧ runMap ⟨"fwjr", "wf", mkStates [⟨"new", "created", "siteA"⟩]⟩ =
      ([], none) := by
  constructor
  · have h := runMap_emit_contract.1
      ⟨"job", "wf", mkStates [⟨"new", "created", "siteA"⟩]⟩
      "queued_first" rfl rfl
    simpa using h
  · have h := runMap_emit_contract.2
      ⟨"fwjr", "wf", mkStates [⟨"new", "created", "siteA"⟩]⟩ (by decide)
    simpa using h

/-- Claim C9: whenever running the map function on a document throws the
invalid-transition error, no row is emitted: `statusMap()` is evaluated while
building the argument of `emit`, so the throw precedes any output. -/
theorem error_emits_nothing (doc : JobDoc)
    (h : (runMap doc).2 = some JSError.invalidTransition) :
    (runMap doc).1 = [] := by
  rw [runMap] at h ⊢
  by_cases ht : doc.type = "job"
  · rw [if_pos ht] at h ⊢
    cases hs : statusMapM doc.states with
    | error e => simp [hs]
    | ok st =>
        rw [hs] at h
        simp at h
  · rw [if_neg ht]

/-- Witness for claim C9 at the spec's concrete invalid transition
`{old:"bogus", new:"created"}`. -/
theorem error_emits_nothing_witness :
    (runMap ⟨"job", "wf", mkStates [⟨"bogus", "created", "siteA"⟩]⟩).2 =
        some JSError.invalidTransition
    ∧ (runMap ⟨"job", "wf", mkStates [⟨"bogus", "created", "siteA"⟩]⟩).1 =
        [] :=
  ⟨rfl, error_emits_nothing
    ⟨"job", "wf", mkStates [⟨"bogus", "created", "siteA"⟩]⟩ rfl⟩

/-- Counterexample to claim C7 as stated: on the single-transition history
`[{old:"created", new:"executing", loc:"siteA"}]` the code computes
`lastStateIndex - 1 = -1`, reads `doc['states'][-1]` (which is `undefined`),
and throws a `TypeError` from `.oldstate` — not the invalid-transition
error. -/
theorem executing_singleton_cex :
    classify [⟨"created", "executing", "siteA"⟩] = .error .typeError
    ∧ JSError.typeError ≠ JSError.invalidTransition :=
  ⟨rfl, by decide⟩

/-- Claim C7 as amended: on any job document whose single transition has
`newstate = "executing"`, the lookup at position `lastStateIndex - 1 = -1` is
performed and yields `undefined` (`none`), the map function throws a
`TypeError` (not a typed `InvalidTransition`/`InsufficientHistory`), and no
row is emitted. -/
theorem executing_singleton_typeError (t : Transition)
    (hn : t.newstate = "executing") (wf : String) :
    runMap ⟨"job", wf, mkStates [t]⟩ = ([], some JSError.typeError)
    ∧ statesGet (mkStates [t]) (lastKey (mkStates [t]) - 1) = none := by
  constructor
  · have hc : statusMapM (mkStates [t]) = .error .typeError := by
      have hcl := classify_eq_statusCore [t]
      rw [classify] at hcl
      rw [hcl]
      simp [statusCore, hn]
    simp [runMap, hc]
  · rw [lastKey_mkStates [t] (by simp), statesGet_mkStates]
    norm_num

/-- Witness for the amended claim C7 at a concrete single-transition
history. -/
theorem executing_singleton_typeError_witness :
    runMap ⟨"job", "wf", mkStates [⟨"created", "executing", "siteA"⟩]⟩ =
        ([], some JSError.typeError)
    ∧ statesGet (mkStates [⟨"created", "executing", "siteA"⟩])
        (lastKey (mkStates [⟨"created", "executing", "siteA"⟩]) - 1) =
        none :=
  executing_singleton_typeError ⟨"created", "executing", "siteA"⟩ rfl "wf"

/-- Counterexample to claim C8 as stated: a job document with an empty
`states` fails with the generic `TypeError` from reading
`doc['states'][0].newstate` of a missing entry — the code has no dedicated
`EmptyHistory` error; its only deliberate error is the invalid-transition
throw, and that is not what is raised here. -/
theorem emptyStates_cex :
    runMap ⟨"job", "wf", []⟩ = ([], some JSError.typeError)
    ∧ JSError.typeError ≠ JSError.invalidTransition :=
  ⟨rfl, by decide⟩

/-- Claim C8 as amended: a job document with an empty `states` emits nothing
and fails, but with the `TypeError` raised by reading the missing entry at
index 0 (`lastStateIndex` keeps its initial value 0), not a dedicated
`EmptyHistory` error. -/
theorem emptyStates_typeError (wf : String) :
    runMap ⟨"job", wf, []⟩ = ([], some JSError.typeError) := rfl

/-- Claim C1, evaluated at the failing input: `states` stored as a mapping
with keys 10 and 2, iterated in lexicographic key order ("10" before "2").
The code leaves `lastStateIndex = 2` — the last *iterated* key — and
classifies the entry at key 2 (`oldstate = "new"`, giving `queued_first`),
whereas the entry at the greatest numeric index 10 has
`oldstate = "jobcooloff"`, so reading newstate/oldstate there as the claim
requires would give `queued_retry`. -/
theorem lastKey_iterationOrder_divergence :
    runMap ⟨"job", "wf",
        [(10, ⟨"jobcooloff", "created", "siteA"⟩),
         (2, ⟨"new", "created", "siteB"⟩)]⟩ =
      ([⟨"wf", "queued_first", some "siteB", 1⟩], none)
    ∧ lastKey [(10, ⟨"jobcooloff", "created", "siteA"⟩),
        (2, ⟨"new", "created", "siteB"⟩)] = 2
    ∧ statusCore
        (statesGet [(10, ⟨"jobcooloff", "created", "siteA"⟩),
          (2, ⟨"new", "created", "siteB"⟩)] 10)
        (statesGet [(10, ⟨"jobcooloff", "created", "siteA"⟩),
          (2, ⟨"new", "created", "siteB"⟩)] 9) = .ok "queued_retry" :=
  ⟨rfl, rfl, rfl⟩

end JobDump
